import Mathlib

/-!
# Shallow embedding of the romulan AMD ROM parser

This file embeds the AMD firmware-image parsing core of the `romulan`
repository (files `src/amd/mod.rs`, `src/amd/flash.rs`,
`src/amd/directory/mod.rs`, `src/amd/directory/psp.rs`,
`src/amd/directory/bios.rs`, `src/diff_amd.rs`) into Lean and proves
properties of the embedded definitions.

Conventions of the embedding:
* A flash image is a `List Nat` of byte values (each `< 256` in any real
  image); all machine integers are modelled as `Nat`.
* Rust `Result<T, String>` is modelled as `Except RErr T` where `RErr` is an
  inductive with one constructor per distinct error message produced by the
  source, carrying the data interpolated into the message.
* Rust functions that can panic (out-of-bounds indexing or slicing) are
  wrapped in an outer `Option`: `none` models a panic, `some r` a normal
  return with result `r`.
* Rust slice expressions `&data[a..b]` (with `a ≤ b ≤ data.len()` checked by
  the source before the access) are modelled as `(data.drop a).take (b - a)`.
* Machine integers are `Nat` with the width made explicit by `% 2 ^ w`
  where it matters: multi-byte field reads reduce modulo their width, and
  the `usize` additions of the payload decoders (`start + size`,
  `start + 256`) wrap modulo `2 ^ 64` as in a release build — a debug build
  would abort at a wrapping addition instead, which the affected
  definitions note.  Additions whose wrap would require an impossible
  image (nearly `2 ^ 64` bytes) stay exact, with a comment at each.
-/

namespace Romulan

/-- A byte buffer: the raw flash image. -/
abbrev Bytes := List Nat

/-- Decode a little-endian byte list into a natural number
(first byte is least significant). -/
def leNat : Bytes → Nat
  | [] => 0
  | b :: rest => b + 256 * leNat rest

/-- Encode the low `w` bytes of `n` in little-endian order; models Rust's
`usize::to_le_bytes` (with `w = 8` on a 64-bit target). -/
def leBytes : Nat → Nat → Bytes
  | 0, _ => []
  | w + 1, n => (n % 256) :: leBytes w (n / 256)

/-- The `w`-byte little-endian encoding always has length `w`. -/
theorem leBytes_length (w n : Nat) : (leBytes w n).length = w := by
  induction w generalizing n with
  | zero => rfl
  | succ w ih => simp [leBytes, ih]

/-- Round trip: decoding the `w`-byte little-endian encoding of `n`
recovers `n % 256 ^ w`. -/
theorem leNat_leBytes (w n : Nat) : leNat (leBytes w n) = n % 256 ^ w := by
  induction w generalizing n with
  | zero => simp [leBytes, leNat, Nat.mod_one]
  | succ w ih =>
    simp only [leBytes, leNat, ih]
    rw [pow_succ', Nat.mod_mul]

/-- Read the `len`-byte field at byte offset `off` of a buffer;
models a field access of a zero-copy struct cast. -/
def fieldBytes (bs : Bytes) (off len : Nat) : Bytes :=
  (bs.drop off).take len

/-- Read a little-endian `u32` at byte offset `off`.  The `% 2 ^ 32` makes
the 32-bit width of the read explicit; on a byte-valued buffer (entries
below 256) the reduction is the identity. -/
def leU32at (bs : Bytes) (off : Nat) : Nat :=
  leNat (fieldBytes bs off 4) % 2 ^ 32

/-- Read a little-endian `u64` at byte offset `off` (64-bit width made
explicit as for `leU32at`). -/
def leU64at (bs : Bytes) (off : Nat) : Nat :=
  leNat (fieldBytes bs off 8) % 2 ^ 64

/-- Read the `u8` at byte offset `off`. -/
def u8at (bs : Bytes) (off : Nat) : Nat :=
  bs.getD off 0

/-! ## `src/amd/directory/mod.rs`: address modes and directory headers -/

/-- `AddrMode` from `src/amd/directory/mod.rs`: the four interpretations of
the top two bits of a directory-entry pointer. -/
inductive AddrMode where
  | PhysAddr
  | FlashOffset
  | DirHeaderOffset
  | PartitionOffset
deriving DecidableEq, Repr

/-- `DirectoryHeader` from `src/amd/directory/mod.rs` (16 bytes): magic,
Fletcher32 checksum, entry count, one reserved word. -/
structure DirectoryHeader where
  magic : Nat
  checksum : Nat
  entries : Nat
  f0c : Nat
deriving DecidableEq, Repr

/-- `DirectoryHeader::read_from_prefix`: parse the 16-byte header from the
start of a buffer; `none` when fewer than 16 bytes remain. -/
def parseDirectoryHeader (bs : Bytes) : Option DirectoryHeader :=
  if 16 ≤ bs.length then
    some ⟨leU32at bs 0, leU32at bs 4, leU32at bs 8, leU32at bs 12⟩
  else none

/-- `ComboDirectoryHeader` from `src/amd/directory/mod.rs` (32 bytes). -/
structure ComboDirectoryHeader where
  magic : Nat
  checksum : Nat
  entries : Nat
  look_up_mode : Nat
  f10 : Nat
  f14 : Nat
  f18 : Nat
  f1c : Nat
deriving DecidableEq, Repr

/-- `ComboDirectoryHeader::read_from_prefix`: parse the 32-byte combo header. -/
def parseComboDirectoryHeader (bs : Bytes) : Option ComboDirectoryHeader :=
  if 32 ≤ bs.length then
    some ⟨leU32at bs 0, leU32at bs 4, leU32at bs 8, leU32at bs 12,
          leU32at bs 16, leU32at bs 20, leU32at bs 24, leU32at bs 28⟩
  else none

/-- `ComboDirectoryEntry` from `src/amd/directory/mod.rs` (16 bytes):
`id_select`, 32-bit id, 64-bit directory pointer. -/
structure ComboDirectoryEntry where
  id_select : Nat
  id : Nat
  directory : Nat
deriving DecidableEq, Repr

/-- Parse one 16-byte `ComboDirectoryEntry` from its byte slice. -/
def parseComboEntry (bs : Bytes) : ComboDirectoryEntry :=
  ⟨leU32at bs 0, leU32at bs 4, leU64at bs 8⟩

/-- `LayoutVerified::new_slice_from_prefix(bs, n)` for entries of byte size
`sz`: `none` when fewer than `n * sz` bytes remain, otherwise the `n`
parsed entries. -/
def parseEntryArray (α : Type) (parse : Bytes → α) (sz n : Nat) (bs : Bytes) :
    Option (List α) :=
  if n * sz ≤ bs.length then
    some ((List.range n).map fun i => parse (fieldBytes bs (i * sz) sz))
  else none

/-! ## `src/amd/directory/psp.rs`: PSP directory entries -/

/-- `PspEntryType` from `src/amd/directory/psp.rs`. -/
inductive PspEntryType where
  | AmdPublicKey
  | PspNonVolatileData
  | SmuFirmware
  | AmdSecureDebugKey
  | OemPublicKey
  | SoftFuseChain
  | PspTrustletPublicKey
  | SmuFirmware2
  | WrappedIKEK
  | PspTokenUnlock
  | PspLevel2Dir
  | DxioPhySramFirmwarePublicKey
  | UsbPhyFirmware
  | PspLevel2ADir
  | BiosLevel2Dir
  | PspLevel2BDir
  | PmuPublicKey
  | PspBootLoaderPublicKeysTable
  | PspTrustedOSPublicKeysTable
  | PspRpmcNvram
  | DmcuEram
  | DmcuIsr
deriving DecidableEq, Repr

/-- `TryFrom<u8> for PspEntryType`: the kind byte of each known entry type;
`none` is the `Err("unknown PSP entry type")` case. -/
def pspEntryTypeOfNat (v : Nat) : Option PspEntryType :=
  match v with
  | 0x00 => some .AmdPublicKey
  | 0x04 => some .PspNonVolatileData
  | 0x08 => some .SmuFirmware
  | 0x09 => some .AmdSecureDebugKey
  | 0x0a => some .OemPublicKey
  | 0x0b => some .SoftFuseChain
  | 0x0d => some .PspTrustletPublicKey
  | 0x12 => some .SmuFirmware2
  | 0x21 => some .WrappedIKEK
  | 0x22 => some .PspTokenUnlock
  | 0x40 => some .PspLevel2Dir
  | 0x43 => some .DxioPhySramFirmwarePublicKey
  | 0x44 => some .UsbPhyFirmware
  | 0x48 => some .PspLevel2ADir
  | 0x49 => some .BiosLevel2Dir
  | 0x4a => some .PspLevel2BDir
  | 0x4e => some .PmuPublicKey
  | 0x50 => some .PspBootLoaderPublicKeysTable
  | 0x51 => some .PspTrustedOSPublicKeysTable
  | 0x54 => some .PspRpmcNvram
  | 0x58 => some .DmcuEram
  | 0x59 => some .DmcuIsr
  | _ => none

/-- `PspDirectoryEntry` from `src/amd/directory/psp.rs` (16 bytes).
The source field `_03` is named `f03` here. -/
structure PspDirectoryEntry where
  kind : Nat
  sub_program : Nat
  rom_id : Nat
  f03 : Nat
  size : Nat
  value : Nat
deriving DecidableEq, Repr

/-- `ADDR_MASK` from `src/amd/directory/psp.rs`. -/
def ADDR_MASK : Nat := 0x3FFFFFFF

/-- `MAPPING_MASK` from `src/amd/directory/psp.rs`. -/
def MAPPING_MASK : Nat := 0x00ffffff

/-- Parse one 16-byte `PspDirectoryEntry` from its byte slice. -/
def parsePspEntry (bs : Bytes) : PspDirectoryEntry :=
  ⟨u8at bs 0, u8at bs 1, u8at bs 2, u8at bs 3, leU32at bs 4, leU64at bs 8⟩

namespace PspDirectoryEntry

/-- `PspDirectoryEntry::addr_mode`: the top two bits of `value`.  The source
match arm `_ => unreachable!()` cannot fire for a `u64` value
(`value >>> 62 ≤ 3` whenever `value < 2 ^ 64`), so the catch-all is folded
into the `PartitionOffset` arm. -/
def addr_mode (e : PspDirectoryEntry) : AddrMode :=
  match e.value >>> 62 with
  | 0 => .PhysAddr
  | 1 => .FlashOffset
  | 2 => .DirHeaderOffset
  | _ => .PartitionOffset

/-- `PspDirectoryEntry::addr`: resolve the entry pointer against the
enclosing directory offset. -/
def addr (e : PspDirectoryEntry) (offset : Nat) : Nat :=
  match e.addr_mode with
  | .PhysAddr => e.value &&& MAPPING_MASK
  | .FlashOffset => e.value &&& MAPPING_MASK
  | .DirHeaderOffset => offset + (e.value &&& MAPPING_MASK)
  | .PartitionOffset => e.value

/-- `PspDirectoryEntry::has_no_generic_header`. -/
def has_no_generic_header (e : PspDirectoryEntry) : Bool :=
  match pspEntryTypeOfNat e.kind with
  | some .AmdPublicKey | some .PspNonVolatileData | some .AmdSecureDebugKey
  | some .OemPublicKey | some .PspTrustletPublicKey | some .WrappedIKEK
  | some .PspTokenUnlock | some .PspLevel2Dir | some .PspLevel2ADir
  | some .PspLevel2BDir | some .DxioPhySramFirmwarePublicKey
  | some .UsbPhyFirmware | some .PmuPublicKey
  | some .PspBootLoaderPublicKeysTable | some .PspTrustedOSPublicKeysTable
  | some .PspRpmcNvram | some .DmcuEram | some .DmcuIsr => true
  | _ => false

/-- `PspDirectoryEntry::is_dir`. -/
def is_dir (e : PspDirectoryEntry) : Bool :=
  match pspEntryTypeOfNat e.kind with
  | some .PspLevel2Dir | some .PspLevel2ADir | some .PspLevel2BDir => true
  | _ => false

/-- `PspDirectoryEntry::is_key`. -/
def is_key (e : PspDirectoryEntry) : Bool :=
  match pspEntryTypeOfNat e.kind with
  | some .AmdPublicKey | some .AmdSecureDebugKey | some .OemPublicKey
  | some .PspTrustletPublicKey | some .WrappedIKEK | some .PspTokenUnlock
  | some .DxioPhySramFirmwarePublicKey | some .PmuPublicKey
  | some .PspBootLoaderPublicKeysTable
  | some .PspTrustedOSPublicKeysTable => true
  | _ => false

/-- `PspDirectoryEntry::is_sig_key`. -/
def is_sig_key (e : PspDirectoryEntry) : Bool :=
  match pspEntryTypeOfNat e.kind with
  | some .AmdPublicKey | some .OemPublicKey | some .PspTrustletPublicKey
  | some .DxioPhySramFirmwarePublicKey | some .PmuPublicKey => true
  | _ => false

end PspDirectoryEntry

/-- `PspBinaryHeader` (256 bytes, from coreboot `amdfwtool.h`).  None of the
verified claims inspects its fields, so it is modelled as the raw 256-byte
prefix it is cast from. -/
structure PspBinaryHeader where
  bytes : Bytes
deriving DecidableEq, Repr

/-- `size_of::<PspBinaryHeader>()`. -/
def PSP_BIN_HEADER_SIZE : Nat := 256

/-- `PspBinaryHeader::read_from_prefix`: `none` when fewer than 256 bytes
remain. -/
def readPspBinaryHeader (bs : Bytes) : Option PspBinaryHeader :=
  if PSP_BIN_HEADER_SIZE ≤ bs.length then some ⟨bs.take PSP_BIN_HEADER_SIZE⟩
  else none

/-- Error values of the embedding, one constructor per distinct error message
of the source, carrying the data interpolated into the message. -/
inductive RErr where
  /-- `"Embedded Firmware Structure not found"` (`Rom::new`). -/
  | efsNotFound
  /-- `"{self} invalid: {start:08x}:{end:08x} exceeds size {len:08x}"`
  (`PspDirectoryEntry::data`). -/
  | pspRangeExceeds (start end_ len : Nat)
  /-- `"could not parse BIOS entry header @ {b:08x}"`
  (`BiosDirectoryEntry::data`). -/
  | biosHeaderParse (b : Nat)
  /-- `"no zlib magic @ {b:08x} ({magic:02x})"` (`BiosDirectoryEntry::data`). -/
  | biosNoZlibMagic (b magic : Nat)
  /-- `"{self} invalid: range {start:08x}:{end:08x} exceeds size {len:08x}"`
  (`BiosDirectoryEntry::data`). -/
  | biosRangeExceeds (start end_ len : Nat)
  /-- `"PSP directory header invalid"` (`PspDirectory::new`). -/
  | pspHeaderInvalid
  /-- `"PSP directory entries invalid"` (`PspDirectory::new`). -/
  | pspEntriesInvalid
  /-- `"PSP directory header not found @ {addr:08x}"` (`PspDirectory::new`). -/
  | pspDirNotFound (addr : Nat)
  /-- `"BIOS directory header invalid"` (`BiosDirectory::new`). -/
  | biosHeaderInvalid
  /-- `"BIOS directory entries invalid"` (`BiosDirectory::new`). -/
  | biosEntriesInvalid
  /-- `"BIOS directory header not found"` (`BiosDirectory::new`). -/
  | biosDirNotFound
  /-- `"PSP combo header invalid"` (`PspComboDirectory::new`). -/
  | pspComboHeaderInvalid
  /-- `"PSP combo entries invalid"` (`PspComboDirectory::new`). -/
  | pspComboEntriesInvalid
  /-- `"PSP combo header not found @ {addr:08x}"` (`PspComboDirectory::new`). -/
  | pspComboNotFound (addr : Nat)
  /-- `"BIOS combo header invalid"` (`BiosComboDirectory::new`). -/
  | biosComboHeaderInvalid
  /-- `"BIOS combo entries invalid"` (`BiosComboDirectory::new`). -/
  | biosComboEntriesInvalid
  /-- `"BIOS combo header not found"` (`BiosComboDirectory::new`). -/
  | biosComboNotFound
  /-- `"unknown directory signature {bytes:02x?} @ {addr:08x}"`
  (`Directory::new`). -/
  | unknownDirectorySignature (bytes : Bytes) (addr : Nat)
  /-- `"0x{b:08x}: {e}"` (`Rom::psp` wrapping an inner error). -/
  | romPspAt (b : Nat) (e : RErr)
deriving DecidableEq, Repr

/-- `PspDirectoryEntry::data` from `src/amd/directory/psp.rs`: extract the
optional generic 256-byte PSP binary header and the payload bytes of an
entry.  `offset` is the absolute offset of the enclosing directory.  The
`usize` addition `start + self.size as usize` wraps modulo `2 ^ 64` in a
release build (a debug build aborts at the addition whenever it wraps), and
after a wrap `end_ < start`, so the `data[start..end]` slice taken in every
branch panics; the outer `Option` models that panic as `none`. -/
def PspDirectoryEntry.data (e : PspDirectoryEntry) (data : Bytes)
    (offset : Nat) : Option (Except RErr (Option PspBinaryHeader × Bytes)) :=
  let value := e.value &&& ADDR_MASK
  -- So far, this only holds for the Soft Fuse Chain.
  if e.size = 0xFFFFFFFF then
    some (.ok (none, leBytes 8 value))
  else
    let start := e.addr offset
    let end_ := (start + e.size) % 2 ^ 64
    let len := data.length
    if end_ > len then
      some (.error (.pspRangeExceeds start end_ len))
    else if start > end_ then
      -- Only possible after a wrap: every branch below slices
      -- `data[start..end_]` or a sub-range of it, and panics.
      none
    else if e.has_no_generic_header then
      some (.ok (none, fieldBytes data start (end_ - start)))
    else
      -- `start + PSP_BIN_HEADER_SIZE` is exact: wrapping it would need
      -- `start ≥ 2 ^ 64 - 256` together with `start ≤ end_ ≤ data.length`,
      -- i.e. an image of nearly 2 ^ 64 bytes.
      let bodyStart := start + PSP_BIN_HEADER_SIZE
      if bodyStart > end_ then
        some (.ok (none, fieldBytes data start (end_ - start)))
      else
        match readPspBinaryHeader (data.drop start) with
        | some h =>
          some (.ok (some h, fieldBytes data bodyStart (end_ - bodyStart)))
        | none => some (.ok (none, fieldBytes data start (end_ - start)))

/-- The release-build `usize` wrap is observable: a mode-3 (PartitionOffset)
entry whose raw value is near `2 ^ 64` wraps `start + size` to a small
in-bounds end, and the `data[start..end]` slice panics. -/
theorem pspData_mode3_wrap_panics :
    PspDirectoryEntry.data ⟨0x01, 0, 0, 0, 0x20, 0xFFFFFFFFFFFFFFF0⟩
      (List.replicate 0x20 0) 0 = none := by
  rfl

/-! ## `src/amd/directory/bios.rs`: BIOS directory entries -/

/-- `BiosBinaryHeader` from `src/amd/directory/bios.rs` (256 bytes): five
opaque `u32` words followed by the uncompressed payload `size` at byte
offset 0x14; the remaining 232 bytes are opaque and not modelled. -/
structure BiosBinaryHeader where
  size : Nat
deriving DecidableEq, Repr

/-- `size_of::<BiosBinaryHeader>()` (`BIOS_HEADER_SIZE` in the source). -/
def BIOS_HEADER_SIZE : Nat := 256

/-- `BiosBinaryHeader::read_from_prefix`: `none` when fewer than 256 bytes
remain, otherwise the header with its `size` field read at offset 0x14. -/
def readBiosBinaryHeader (bs : Bytes) : Option BiosBinaryHeader :=
  if BIOS_HEADER_SIZE ≤ bs.length then some ⟨leU32at bs 0x14⟩ else none

/-- `ZLIB_DEFAULT_COMPRESSION_MAGIC` from `src/amd/directory/bios.rs`. -/
def ZLIB_DEFAULT_COMPRESSION_MAGIC : Nat := 0x789c

/-- `ZLIB_BEST_COMPRESSION_MAGIC` from `src/amd/directory/bios.rs`. -/
def ZLIB_BEST_COMPRESSION_MAGIC : Nat := 0x78da

/-- `BIOS_ENTRY_MASK` from `src/amd/directory/bios.rs`. -/
def BIOS_ENTRY_MASK : Nat := 0x00FFFFFF

/-- `BiosEntryType::BiosBinary as u8`. -/
def BiosBinaryKind : Nat := 0x62

/-- `BiosEntryType::BiosLevel2Dir as u8`. -/
def BiosLevel2DirKind : Nat := 0x70

/-- `BiosDirectoryEntry` from `src/amd/directory/bios.rs` (24 bytes). -/
structure BiosDirectoryEntry where
  kind : Nat
  region_kind : Nat
  flags : Nat
  sub_program : Nat
  size : Nat
  source : Nat
  destination : Nat
deriving DecidableEq, Repr

/-- Parse one 24-byte `BiosDirectoryEntry` from its byte slice. -/
def parseBiosEntry (bs : Bytes) : BiosDirectoryEntry :=
  ⟨u8at bs 0, u8at bs 1, u8at bs 2, u8at bs 3, leU32at bs 4,
   leU64at bs 8, leU64at bs 16⟩

namespace BiosDirectoryEntry

/-- `BiosDirectoryEntry::addr_mode`: the top two bits of `source` (see
`PspDirectoryEntry.addr_mode` for the folded catch-all arm). -/
def addr_mode (e : BiosDirectoryEntry) : AddrMode :=
  match e.source >>> 62 with
  | 0 => .PhysAddr
  | 1 => .FlashOffset
  | 2 => .DirHeaderOffset
  | _ => .PartitionOffset

/-- `BiosDirectoryEntry::addr`. -/
def addr (e : BiosDirectoryEntry) (offset : Nat) : Nat :=
  match e.addr_mode with
  | .PhysAddr => e.source &&& BIOS_ENTRY_MASK
  | .FlashOffset => e.source &&& BIOS_ENTRY_MASK
  | .DirHeaderOffset => offset + (e.source &&& BIOS_ENTRY_MASK)
  | .PartitionOffset => e.source

/-- `BiosDirectoryEntry::is_compressed`: bit 0 of `flags`. -/
def is_compressed (e : BiosDirectoryEntry) : Bool :=
  (e.flags &&& 0x1) = 1

/-- `BiosDirectoryEntry::instance`: bits 4..7 of `flags`. -/
def instance_ (e : BiosDirectoryEntry) : Nat :=
  (e.flags >>> 4) &&& 0xF

/-- The slice-length computation `let s = …` at the top of
`BiosDirectoryEntry::data`: the zlib / BIOS-binary-header probe for a
compressed `BiosBinary` entry, the entry's own `size` field otherwise.  The
source indexes `data[b]` and `data[b + 1]` without a bounds check, so the
result is wrapped in `Option`: `none` models that out-of-bounds panic.  The
`usize` addition `b = start + BIOS_HEADER_SIZE` wraps modulo `2 ^ 64` in a
release build, and the slice `&data[start..]` taken for the header cast
panics when `start` exceeds the image length (reachable only after such a
wrap). -/
def payloadSize (e : BiosDirectoryEntry) (data : Bytes) (offset : Nat) :
    Option (Except RErr Nat) :=
  let start := e.addr offset
  if e.kind = BiosBinaryKind ∧ e.is_compressed then
    let b := (start + BIOS_HEADER_SIZE) % 2 ^ 64
    if b + 1 < data.length then
      let magic := (u8at data b) * 256 + u8at data (b + 1)
      if magic = ZLIB_DEFAULT_COMPRESSION_MAGIC ∨
          magic = ZLIB_BEST_COMPRESSION_MAGIC then
        if start ≤ data.length then
          match readBiosBinaryHeader (data.drop start) with
          | some h => some (.ok (h.size + BIOS_HEADER_SIZE))
          | none => some (.error (.biosHeaderParse b))
        else
          none  -- `&data[start..]` out of range: panic
      else
        some (.error (.biosNoZlibMagic b magic))
    else
      none  -- `data[b]` / `data[b + 1]` out of bounds: panic
  else
    some (.ok e.size)

/-- `BiosDirectoryEntry::data` from `src/amd/directory/bios.rs`: compute the
slice length (`payloadSize`, inline in the source), then bounds-check
`start + s` against the image and extract.  The `usize` addition `start + s`
wraps modulo `2 ^ 64` in a release build (a debug build aborts at the
addition whenever it wraps); after a wrap `end_ < start` and the
`data[start..end]` slice panics. -/
def data (e : BiosDirectoryEntry) (data : Bytes) (offset : Nat) :
    Option (Except RErr Bytes) :=
  let start := e.addr offset
  match e.payloadSize data offset with
  | none => none
  | some (.error er) => some (.error er)
  | some (.ok s) =>
    let end_ := (start + s) % 2 ^ 64
    let len := data.length
    if end_ ≤ len then
      if start ≤ end_ then
        some (.ok (fieldBytes data start (end_ - start)))
      else
        none  -- wrapped end: `data[start..end_]` out of range: panic
    else
      some (.error (.biosRangeExceeds start end_ len))

end BiosDirectoryEntry

/-! ## Directory parsing (`PspDirectory::new`, `BiosDirectory::new`,
`Directory::new` and the combo variants) -/

/-- The four magic bytes of each directory flavour, as byte lists. -/
def magicPSP : Bytes := [0x24, 0x50, 0x53, 0x50]

/-- ASCII `"$PL2"`. -/
def magicPL2 : Bytes := [0x24, 0x50, 0x4c, 0x32]

/-- ASCII `"2PSP"`. -/
def magic2PSP : Bytes := [0x32, 0x50, 0x53, 0x50]

/-- ASCII `"$BHD"`. -/
def magicBHD : Bytes := [0x24, 0x42, 0x48, 0x44]

/-- ASCII `"$BL2"`. -/
def magicBL2 : Bytes := [0x24, 0x42, 0x4c, 0x32]

/-- ASCII `"2BHD"`. -/
def magic2BHD : Bytes := [0x32, 0x42, 0x48, 0x44]

/-- `PspDirectory` from `src/amd/directory/psp.rs`. -/
structure PspDirectory where
  addr : Nat
  header : DirectoryHeader
  entries : List PspDirectoryEntry
deriving DecidableEq, Repr

/-- `BiosDirectory` from `src/amd/directory/bios.rs`. -/
structure BiosDirectory where
  addr : Nat
  header : DirectoryHeader
  entries : List BiosDirectoryEntry
deriving DecidableEq, Repr

/-- `PspComboDirectory` from `src/amd/directory/psp.rs`. -/
structure PspComboDirectory where
  addr : Nat
  header : ComboDirectoryHeader
  entries : List ComboDirectoryEntry
deriving DecidableEq, Repr

/-- `BiosComboDirectory` from `src/amd/directory/bios.rs`. -/
structure BiosComboDirectory where
  addr : Nat
  header : ComboDirectoryHeader
  entries : List ComboDirectoryEntry
deriving DecidableEq, Repr

/-- `PspDirectory::new`: the outer `Option` models the panic of the
unchecked slice `&data[..4]` when fewer than 4 bytes remain. -/
def pspDirectoryNew (data : Bytes) (addr : Nat) :
    Option (Except RErr PspDirectory) :=
  if data.length < 4 then none
  else
    let m := data.take 4
    if m = magicPSP ∨ m = magicPL2 then
      match parseDirectoryHeader data with
      | none => some (.error .pspHeaderInvalid)
      | some header =>
        match parseEntryArray PspDirectoryEntry parsePspEntry 16
            header.entries (data.drop 16) with
        | none => some (.error .pspEntriesInvalid)
        | some entries => some (.ok ⟨addr, header, entries⟩)
    else
      some (.error (.pspDirNotFound addr))

/-- `BiosDirectory::new` (same panic modelling as `pspDirectoryNew`). -/
def biosDirectoryNew (data : Bytes) (addr : Nat) :
    Option (Except RErr BiosDirectory) :=
  if data.length < 4 then none
  else
    let m := data.take 4
    if m = magicBHD ∨ m = magicBL2 then
      match parseDirectoryHeader data with
      | none => some (.error .biosHeaderInvalid)
      | some header =>
        match parseEntryArray BiosDirectoryEntry parseBiosEntry 24
            header.entries (data.drop 16) with
        | none => some (.error .biosEntriesInvalid)
        | some entries => some (.ok ⟨addr, header, entries⟩)
    else
      some (.error .biosDirNotFound)

/-- `PspComboDirectory::new`. -/
def pspComboDirectoryNew (data : Bytes) (addr : Nat) :
    Option (Except RErr PspComboDirectory) :=
  if data.length < 4 then none
  else
    if data.take 4 = magic2PSP then
      match parseComboDirectoryHeader data with
      | none => some (.error .pspComboHeaderInvalid)
      | some header =>
        match parseEntryArray ComboDirectoryEntry parseComboEntry 16
            header.entries (data.drop 32) with
        | none => some (.error .pspComboEntriesInvalid)
        | some entries => some (.ok ⟨addr, header, entries⟩)
    else
      some (.error (.pspComboNotFound addr))

/-- `BiosComboDirectory::new`. -/
def biosComboDirectoryNew (data : Bytes) (addr : Nat) :
    Option (Except RErr BiosComboDirectory) :=
  if data.length < 4 then none
  else
    if data.take 4 = magic2BHD then
      match parseComboDirectoryHeader data with
      | none => some (.error .biosComboHeaderInvalid)
      | some header =>
        match parseEntryArray ComboDirectoryEntry parseComboEntry 16
            header.entries (data.drop 32) with
        | none => some (.error .biosComboEntriesInvalid)
        | some entries => some (.ok ⟨addr, header, entries⟩)
    else
      some (.error .biosComboNotFound)

/-- `Directory` from `src/amd/directory/mod.rs`: the discriminated union
over the six directory shapes. -/
inductive Directory where
  | Bios (d : BiosDirectory)
  | BiosLevel2 (d : BiosDirectory)
  | BiosCombo (d : BiosComboDirectory)
  | Psp (d : PspDirectory)
  | PspLevel2 (d : PspDirectory)
  | PspCombo (d : PspComboDirectory)
deriving DecidableEq, Repr

/-- `Directory::new`: dispatch on the four magic bytes at the start of the
buffer.  The outer `Option` models the panic of the unchecked `&data[..4]`
slice when fewer than 4 bytes remain. -/
def directoryNew (data : Bytes) (addr : Nat) :
    Option (Except RErr Directory) :=
  if data.length < 4 then none
  else
    let m := data.take 4
    if m = magicBHD then
      (biosDirectoryNew data addr).map (Except.map .Bios)
    else if m = magic2BHD then
      (biosComboDirectoryNew data addr).map (Except.map .BiosCombo)
    else if m = magicBL2 then
      (biosDirectoryNew data addr).map (Except.map .BiosLevel2)
    else if m = magicPSP then
      (pspDirectoryNew data addr).map (Except.map .Psp)
    else if m = magic2PSP then
      (pspComboDirectoryNew data addr).map (Except.map .PspCombo)
    else if m = magicPL2 then
      (pspDirectoryNew data addr).map (Except.map .PspLevel2)
    else
      some (.error (.unknownDirectorySignature m addr))

/-! ## `src/amd/flash.rs`: the Embedded Firmware Structure -/

/-- `EFS` from `src/amd/flash.rs` (`repr(packed)`).  The reserved fields
`_2c`, `_38`, `_3c` are named `f2c`, `f38`, `f3c`; the three SPI
configuration records and their padding bytes (offsets 0x40..0x4a) are kept
as the raw byte list `spi`. -/
structure EFS where
  magic : Nat
  imc_fw : Nat
  gbe_fw : Nat
  xhci_fw : Nat
  psp_legacy : Nat
  psp_17_00 : Nat
  bios_17_00_0f : Nat
  bios_17_10_1f : Nat
  bios_17_30_3f_19_00_0f : Nat
  second_gen : Nat
  bios_17_60 : Nat
  f2c : Nat
  promontory : Nat
  lp_promontory : Nat
  f38 : Nat
  f3c : Nat
  spi : Bytes
deriving DecidableEq, Repr

/-- `size_of::<EFS>()`: sixteen packed `u32` fields (64 bytes) followed by
the SPI configuration bytes at offsets 0x40..0x4a, so 64 + 11 = 75 bytes
(`repr(packed)`, no padding). -/
def EFS_SIZE : Nat := 75

/-- `get_real_addr` from `src/amd/flash.rs`: a `u32` pointer field is absent
when it is all-zero or all-ones. -/
def get_real_addr (addr : Nat) : Option Nat :=
  if addr = 0x00000000 ∨ addr = 0xffffffff then none else some addr

/-- Parse an `EFS` from the start of a buffer (the source casts via
`LayoutVerified::new_unaligned_from_prefix`, which its caller only reaches
with at least `EFS_SIZE` bytes remaining). -/
def parseEFS (bs : Bytes) : EFS :=
  ⟨leU32at bs 0x00, leU32at bs 0x04, leU32at bs 0x08, leU32at bs 0x0c,
   leU32at bs 0x10, leU32at bs 0x14, leU32at bs 0x18, leU32at bs 0x1c,
   leU32at bs 0x20, leU32at bs 0x24, leU32at bs 0x28, leU32at bs 0x2c,
   leU32at bs 0x30, leU32at bs 0x34, leU32at bs 0x38, leU32at bs 0x3c,
   fieldBytes bs 0x40 11⟩

/-! ## `src/amd/mod.rs`: EFS scan (`Rom::new`) and `Rom::psp` -/

/-- `MAGIC.as_bytes()`: the EFS magic `0x55aa55aa` as little-endian bytes. -/
def efsMagicBytes : Bytes := [0xaa, 0x55, 0xaa, 0x55]

/-- `STEP_SIZE` from `src/amd/mod.rs`. -/
def STEP_SIZE : Nat := 0x1000

/-- `Rom` from `src/amd/mod.rs`: the whole image together with the parsed
EFS record.  (The offset at which the EFS was found is not a field.) -/
structure Rom where
  data : Bytes
  efs : EFS
deriving DecidableEq, Repr

/-- The scan loop of `Rom::new`: starting at offset `i` and stepping by
`STEP_SIZE` while at least `EFS_SIZE` bytes remain, return the first offset
whose four leading bytes are the EFS magic. -/
def efsScanFrom (data : Bytes) (i : Nat) : Option Nat :=
  if h : i + EFS_SIZE ≤ data.length then
    if fieldBytes data i 4 = efsMagicBytes then some i
    else efsScanFrom data (i + STEP_SIZE)
  else none
termination_by data.length - i
decreasing_by
  simp only [EFS_SIZE] at h
  simp only [STEP_SIZE]
  omega

/-- `Rom::new` from `src/amd/mod.rs`. -/
def Rom.new (data : Bytes) : Except RErr Rom :=
  match efsScanFrom data 0 with
  | some i => .ok ⟨data, parseEFS (data.drop i)⟩
  | none => .error .efsNotFound

/-- `Rom::psp` from `src/amd/mod.rs`: follow the modern PSP directory
pointer (`self.efs.psp`, the field at EFS offset 0x14, named `psp_17_00` in
`src/amd/flash.rs`).  Only a pointer equal to 0 is skipped.  The outer
`Option` models the panic of `&self.data[b..]` when `b` exceeds the image
length, and the panic inside `Directory::new(s)` when fewer than 4 bytes
remain. -/
def Rom.psp (r : Rom) : Option (Except RErr (List Directory)) :=
  let b := r.efs.psp_17_00
  if b = 0 then some (.ok [])
  else if r.data.length < b then none  -- `&self.data[b..]` out of range: panic
  else
    match directoryNew (r.data.drop b) b with
    | none => none
    | some (.error e) => some (.error (.romPspAt b e))
    | some (.ok d) => some (.ok [d])

/-! ## `src/diff_amd.rs`: entry pairing of the diff engine -/

/-- The pairing predicate of `diff_psp_dirs`: the closure
`|e| e.kind == de.kind && e.sub_program == de.sub_program`. -/
def pspKeyEq (de e : PspDirectoryEntry) : Bool :=
  e.kind == de.kind && e.sub_program == de.sub_program

/-- The pairing predicate of `diff_bios_simple_dir_entries`: the closure
`|e| e.kind == de.kind && e.sub_program == de.sub_program && e.flags == de.flags`. -/
def biosKeyEq (de e : BiosDirectoryEntry) : Bool :=
  e.kind == de.kind && e.sub_program == de.sub_program && e.flags == de.flags

/-- The `common` / `only_1` / `only_2` partition computed by
`diff_psp_dirs`: each entry of `es1` is paired with the first entry of
`es2` whose key matches (`find`), otherwise collected into `only_1`;
`only_2` collects the entries of `es2` matching nothing in `es1`.  The
source builds `common` and `only_1` in a single pass over `es1`; the
`filterMap` / `filter` split here is that same computation. -/
def diffPspPairs (es1 es2 : List PspDirectoryEntry) :
    List (PspDirectoryEntry × PspDirectoryEntry) ×
      List PspDirectoryEntry × List PspDirectoryEntry :=
  (es1.filterMap fun de => (es2.find? (pspKeyEq de)).map fun e => (de, e),
   es1.filter fun de => (es2.find? (pspKeyEq de)).isNone,
   es2.filter fun de => !(es1.any (pspKeyEq de)))

/-- The `common` / `only_1` / `only_2` partition computed by
`diff_bios_simple_dir_entries` (key: kind, sub_program, flags). -/
def diffBiosPairs (es1 es2 : List BiosDirectoryEntry) :
    List (BiosDirectoryEntry × BiosDirectoryEntry) ×
      List BiosDirectoryEntry × List BiosDirectoryEntry :=
  (es1.filterMap fun de => (es2.find? (biosKeyEq de)).map fun e => (de, e),
   es1.filter fun de => (es2.find? (biosKeyEq de)).isNone,
   es2.filter fun de => !(es1.any (biosKeyEq de)))

/-! ## Theorems -/

/-- Masking with `MAPPING_MASK = 0xFFFFFF` is reduction modulo `2 ^ 24`. -/
theorem and_MAPPING_MASK (x : Nat) : x &&& MAPPING_MASK = x % 2 ^ 24 := by
  have h : MAPPING_MASK = 2 ^ 24 - 1 := by norm_num [MAPPING_MASK]
  rw [h, Nat.and_pow_two_sub_one_eq_mod]

/-- Masking with `BIOS_ENTRY_MASK = 0xFFFFFF` is reduction modulo `2 ^ 24`. -/
theorem and_BIOS_ENTRY_MASK (x : Nat) : x &&& BIOS_ENTRY_MASK = x % 2 ^ 24 := by
  have h : BIOS_ENTRY_MASK = 2 ^ 24 - 1 := by norm_num [BIOS_ENTRY_MASK]
  rw [h, Nat.and_pow_two_sub_one_eq_mod]

/-- C1: for every pointer value and enclosing directory offset `D`, address
resolution (`PspDirectoryEntry::addr` / `BiosDirectoryEntry::addr`, with the
mode taken from the top two bits of the value by `addr_mode`) returns the
value masked to its low 24 bits for modes 0 (PhysAddr) and 1 (FlashOffset),
`D` plus the 24-bit-masked value for mode 2 (DirHeaderOffset), and the value
unchanged for mode 3 (PartitionOffset). -/
theorem c1_addr_resolution (p : PspDirectoryEntry) (b : BiosDirectoryEntry)
    (D : Nat) :
    (p.addr D =
      if p.value >>> 62 = 0 ∨ p.value >>> 62 = 1 then p.value % 2 ^ 24
      else if p.value >>> 62 = 2 then D + p.value % 2 ^ 24
      else p.value) ∧
    (b.addr D =
      if b.source >>> 62 = 0 ∨ b.source >>> 62 = 1 then b.source % 2 ^ 24
      else if b.source >>> 62 = 2 then D + b.source % 2 ^ 24
      else b.source) := by
  constructor
  · unfold PspDirectoryEntry.addr PspDirectoryEntry.addr_mode
    rcases hv : p.value >>> 62 with _ | _ | _ | k <;>
      simp [hv, and_MAPPING_MASK]
  · unfold BiosDirectoryEntry.addr BiosDirectoryEntry.addr_mode
    rcases hv : b.source >>> 62 with _ | _ | _ | k <;>
      simp [hv, and_BIOS_ENTRY_MASK]

/-- C2: for every PSP directory entry whose `size` field is `0xFFFFFFFF`,
`PspDirectoryEntry::data` returns `Ok` with no PSP binary header and a
payload of exactly 8 bytes, the little-endian encoding of
`value & 0x3FFFFFFF`, regardless of the image contents. -/
theorem c2_soft_fuse_payload (e : PspDirectoryEntry) (data : Bytes)
    (offset : Nat) (h : e.size = 0xFFFFFFFF) :
    e.data data offset = some (.ok (none, leBytes 8 (e.value &&& 0x3FFFFFFF))) ∧
    (leBytes 8 (e.value &&& 0x3FFFFFFF)).length = 8 ∧
    leNat (leBytes 8 (e.value &&& 0x3FFFFFFF)) = e.value &&& 0x3FFFFFFF := by
  refine ⟨?_, leBytes_length 8 _, ?_⟩
  · simp [PspDirectoryEntry.data, h, ADDR_MASK]
  · rw [leNat_leBytes]
    have hlt : e.value &&& 0x3FFFFFFF < 2 ^ 30 := by
      have h1 : (0x3FFFFFFF : Nat) = 2 ^ 30 - 1 := by norm_num
      rw [h1, Nat.and_pow_two_sub_one_eq_mod]
      exact Nat.mod_lt _ (by norm_num)
    exact Nat.mod_eq_of_lt (lt_of_lt_of_le hlt (by norm_num))

/-- Witness for C2 at a concrete Soft Fuse Chain entry
(`kind = 0x0B`, `size = 0xFFFFFFFF`, `value = 0x42`) on the empty image. -/
theorem c2_soft_fuse_payload_witness :
    PspDirectoryEntry.data ⟨0x0b, 0, 0, 0, 0xFFFFFFFF, 0x42⟩ [] 0 =
      some (.ok (none, leBytes 8 (0x42 &&& 0x3FFFFFFF))) ∧
    (leBytes 8 ((0x42 : Nat) &&& 0x3FFFFFFF)).length = 8 ∧
    leNat (leBytes 8 ((0x42 : Nat) &&& 0x3FFFFFFF)) = 0x42 &&& 0x3FFFFFFF :=
  c2_soft_fuse_payload ⟨0x0b, 0, 0, 0, 0xFFFFFFFF, 0x42⟩ [] 0 rfl

/-- Every signing-key kind is a key kind (`is_sig_key ⊆ is_key`). -/
theorem isSigKey_isKey (e : PspDirectoryEntry) (h : e.is_sig_key = true) :
    e.is_key = true := by
  unfold PspDirectoryEntry.is_sig_key at h
  unfold PspDirectoryEntry.is_key
  rcases hk : pspEntryTypeOfNat e.kind with _ | t
  · rw [hk] at h
    exact Bool.noConfusion h
  · rw [hk] at h
    cases t <;> simp_all

/-- Every key kind is on the headerless list (`is_key ⊆
has_no_generic_header`). -/
theorem isKey_noHeader (e : PspDirectoryEntry) (h : e.is_key = true) :
    e.has_no_generic_header = true := by
  unfold PspDirectoryEntry.is_key at h
  unfold PspDirectoryEntry.has_no_generic_header
  rcases hk : pspEntryTypeOfNat e.kind with _ | t
  · rw [hk] at h
    exact Bool.noConfusion h
  · rw [hk] at h
    cases t <;> simp_all

/-- Payload extraction for a headerless entry with an in-range size returns
the whole resolved byte range with no header split off. -/
theorem pspData_noHeader (e : PspDirectoryEntry) (data : Bytes) (offset : Nat)
    (hng : e.has_no_generic_header = true) (hsz : e.size ≠ 0xFFFFFFFF)
    (hbound : e.addr offset + e.size ≤ data.length)
    (hlen : data.length < 2 ^ 64) :
    e.data data offset =
      some (.ok (none, fieldBytes data (e.addr offset) e.size)) := by
  unfold PspDirectoryEntry.data
  rw [if_neg hsz]
  simp only
  rw [show (e.addr offset + e.size) % 2 ^ 64 = e.addr offset + e.size from
      Nat.mod_eq_of_lt (by omega),
    if_neg (by omega : ¬ e.addr offset + e.size > data.length),
    if_neg (by omega : ¬ e.addr offset > e.addr offset + e.size),
    if_pos hng, Nat.add_sub_cancel_left]

/-- C10: `is_sig_key` implies `is_key`, `is_key` implies
`has_no_generic_header`, and payload extraction for any key entry (with a
referenced, in-range payload) returns the whole resolved byte range without
splitting off a 256-byte generic PSP binary header. -/
theorem c10_key_entry_payload :
    (∀ e : PspDirectoryEntry, e.is_sig_key = true → e.is_key = true) ∧
    (∀ e : PspDirectoryEntry, e.is_key = true →
      e.has_no_generic_header = true) ∧
    (∀ (e : PspDirectoryEntry) (data : Bytes) (offset : Nat),
      e.is_key = true → e.size ≠ 0xFFFFFFFF →
      e.addr offset + e.size ≤ data.length → data.length < 2 ^ 64 →
      e.data data offset =
        some (.ok (none, fieldBytes data (e.addr offset) e.size))) :=
  ⟨isSigKey_isKey, isKey_noHeader,
   fun e data offset hkey hsz hbound hlen =>
     pspData_noHeader e data offset (isKey_noHeader e hkey) hsz hbound hlen⟩

/-- Witness for C10 at a concrete AMD-public-key entry (`kind = 0x00`,
`size = 4`, `value = 0`, mode 0) on a 4-byte image. -/
theorem c10_key_entry_payload_witness :
    PspDirectoryEntry.is_sig_key ⟨0x00, 0, 0, 0, 4, 0⟩ = true ∧
    PspDirectoryEntry.data ⟨0x00, 0, 0, 0, 4, 0⟩ [1, 2, 3, 4] 0 =
      some (.ok (none, fieldBytes [1, 2, 3, 4]
        (PspDirectoryEntry.addr ⟨0x00, 0, 0, 0, 4, 0⟩ 0) 4)) := by
  refine ⟨by decide, ?_⟩
  exact c10_key_entry_payload.2.2 ⟨0x00, 0, 0, 0, 4, 0⟩ [1, 2, 3, 4] 0
    (by decide) (by decide) (by decide) (by norm_num)

/-- Length of a field slice. -/
theorem fieldBytes_length (bs : Bytes) (off len : Nat) :
    (fieldBytes bs off len).length = min len (bs.length - off) := by
  simp [fieldBytes]

/-- A field slice whose end is within the buffer is with its own length a
slice at the same offset. -/
theorem fieldBytes_self (bs : Bytes) (off len : Nat)
    (h : off + len ≤ bs.length) :
    (fieldBytes bs off len).length = len ∧
    off + (fieldBytes bs off len).length ≤ bs.length := by
  rw [fieldBytes_length]
  omega

/-- A wrapped 64-bit sum that is still at least its first summand did not
actually wrap (for a second summand below `2 ^ 64`). -/
theorem wrap_add_eq (a b : Nat) (hb : b < 2 ^ 64)
    (h : a ≤ (a + b) % 2 ^ 64) : (a + b) % 2 ^ 64 = a + b := by
  rcases Nat.lt_or_ge (a + b) (2 ^ 64) with hw | hw
  · exact Nat.mod_eq_of_lt hw
  · exfalso
    have hpos : 0 < 2 ^ 64 := by norm_num
    have ha : a < 2 ^ 64 := lt_of_le_of_lt h (Nat.mod_lt _ hpos)
    have hm : (a + b) % 2 ^ 64 = a + b - 2 ^ 64 := by
      rw [Nat.mod_eq_sub_mod hw, Nat.mod_eq_of_lt (by omega)]
    rw [hm] at h
    omega

/-- C4: for a BIOS entry of kind 0x62 (`BiosBinary`) with flags bit 0 set,
`BiosDirectoryEntry::data` reads the two bytes at resolved start + 256 as a
big-endian `u16`; if they are neither `0x789C` nor `0x78DA` it returns a
missing-zlib-magic error; otherwise an `Ok` result is the slice starting at
the resolved start of length `size + 256` where `size` is the BIOS binary
header's uncompressed-size field.  For every other entry an `Ok` result has
the entry's `size` field as its length. -/
theorem c4_bios_zlib (e : BiosDirectoryEntry) (data : Bytes) (offset : Nat) :
    (e.kind = BiosBinaryKind → e.is_compressed = true →
      data.length < 2 ^ 64 →
      e.addr offset + BIOS_HEADER_SIZE + 1 < data.length →
      (((u8at data (e.addr offset + BIOS_HEADER_SIZE)) * 256 +
          u8at data (e.addr offset + BIOS_HEADER_SIZE + 1) ≠
          ZLIB_DEFAULT_COMPRESSION_MAGIC ∧
        (u8at data (e.addr offset + BIOS_HEADER_SIZE)) * 256 +
          u8at data (e.addr offset + BIOS_HEADER_SIZE + 1) ≠
          ZLIB_BEST_COMPRESSION_MAGIC →
        e.data data offset = some (.error (.biosNoZlibMagic
          (e.addr offset + BIOS_HEADER_SIZE)
          ((u8at data (e.addr offset + BIOS_HEADER_SIZE)) * 256 +
            u8at data (e.addr offset + BIOS_HEADER_SIZE + 1))))) ∧
      (∀ body, e.data data offset = some (.ok body) →
        ∃ h : BiosBinaryHeader,
          readBiosBinaryHeader (data.drop (e.addr offset)) = some h ∧
          body = fieldBytes data (e.addr offset) (h.size + BIOS_HEADER_SIZE) ∧
          body.length = h.size + BIOS_HEADER_SIZE))) ∧
    (¬(e.kind = BiosBinaryKind ∧ e.is_compressed = true) →
      e.size < 2 ^ 32 →
      ∀ body, e.data data offset = some (.ok body) →
      body.length = e.size) := by
  constructor
  · intro hk hc hlen hb
    have hmodb : (e.addr offset + BIOS_HEADER_SIZE) % 2 ^ 64 =
        e.addr offset + BIOS_HEADER_SIZE :=
      Nat.mod_eq_of_lt (by omega)
    constructor
    · intro hm
      have hp : e.payloadSize data offset = some (.error (.biosNoZlibMagic
          (e.addr offset + BIOS_HEADER_SIZE)
          ((u8at data (e.addr offset + BIOS_HEADER_SIZE)) * 256 +
            u8at data (e.addr offset + BIOS_HEADER_SIZE + 1)))) := by
        unfold BiosDirectoryEntry.payloadSize
        rw [if_pos ⟨hk, hc⟩]
        simp only
        rw [hmodb, if_pos (by omega), if_neg (by tauto)]
      unfold BiosDirectoryEntry.data
      rw [hp]
    · intro body hok
      by_cases hm : (u8at data (e.addr offset + BIOS_HEADER_SIZE)) * 256 +
          u8at data (e.addr offset + BIOS_HEADER_SIZE + 1) =
          ZLIB_DEFAULT_COMPRESSION_MAGIC ∨
          (u8at data (e.addr offset + BIOS_HEADER_SIZE)) * 256 +
          u8at data (e.addr offset + BIOS_HEADER_SIZE + 1) =
          ZLIB_BEST_COMPRESSION_MAGIC
      · have hh : readBiosBinaryHeader (data.drop (e.addr offset)) =
            some ⟨leU32at (data.drop (e.addr offset)) 0x14⟩ := by
          unfold readBiosBinaryHeader
          rw [if_pos (by rw [List.length_drop]; unfold BIOS_HEADER_SIZE at hb ⊢; omega)]
        have hp : e.payloadSize data offset =
            some (.ok (leU32at (data.drop (e.addr offset)) 0x14 +
              BIOS_HEADER_SIZE)) := by
          unfold BiosDirectoryEntry.payloadSize
          rw [if_pos ⟨hk, hc⟩]
          simp only
          rw [hmodb, if_pos (by omega), if_pos hm,
            if_pos (by omega : e.addr offset ≤ data.length), hh]
        unfold BiosDirectoryEntry.data at hok
        rw [hp] at hok
        simp only at hok
        have hu : leU32at (data.drop (e.addr offset)) 0x14 < 2 ^ 32 :=
          Nat.mod_lt _ (by norm_num)
        have hu64 : leU32at (data.drop (e.addr offset)) 0x14 +
            BIOS_HEADER_SIZE < 2 ^ 64 := by
          have hcmp : (2 : Nat) ^ 32 + BIOS_HEADER_SIZE < 2 ^ 64 := by
            norm_num [BIOS_HEADER_SIZE]
          omega
        generalize hE : (e.addr offset +
          (leU32at (data.drop (e.addr offset)) 0x14 + BIOS_HEADER_SIZE)) %
          2 ^ 64 = E at hok
        by_cases hle : E ≤ data.length
        · rw [if_pos hle] at hok
          by_cases hsE : e.addr offset ≤ E
          · rw [if_pos hsE] at hok
            rw [Option.some.injEq, Except.ok.injEq] at hok
            have hEeq : E = e.addr offset +
                (leU32at (data.drop (e.addr offset)) 0x14 +
                  BIOS_HEADER_SIZE) := by
              rw [← hE]
              exact wrap_add_eq _ _ hu64 (by rw [hE]; exact hsE)
            refine ⟨⟨leU32at (data.drop (e.addr offset)) 0x14⟩, hh, ?_, ?_⟩
            · rw [← hok, hEeq, Nat.add_sub_cancel_left]
            · rw [← hok, hEeq, Nat.add_sub_cancel_left,
                (fieldBytes_self data _ _ (hEeq ▸ hle)).1]
          · rw [if_neg hsE] at hok
            exact absurd hok (by simp)
        · rw [if_neg hle] at hok
          exact absurd hok (by simp)
      · have hp : e.payloadSize data offset = some (.error (.biosNoZlibMagic
            (e.addr offset + BIOS_HEADER_SIZE)
            ((u8at data (e.addr offset + BIOS_HEADER_SIZE)) * 256 +
              u8at data (e.addr offset + BIOS_HEADER_SIZE + 1)))) := by
          unfold BiosDirectoryEntry.payloadSize
          rw [if_pos ⟨hk, hc⟩]
          simp only
          rw [hmodb, if_pos (by omega), if_neg hm]
        unfold BiosDirectoryEntry.data at hok
        rw [hp] at hok
        exact absurd hok (by simp)
  · intro hnc hsize body hok
    have hp : e.payloadSize data offset = some (.ok e.size) := by
      unfold BiosDirectoryEntry.payloadSize
      rw [if_neg hnc]
    unfold BiosDirectoryEntry.data at hok
    rw [hp] at hok
    simp only at hok
    have hs64 : e.size < 2 ^ 64 := by
      have hcmp : (2 : Nat) ^ 32 < 2 ^ 64 := by norm_num
      omega
    generalize hE : (e.addr offset + e.size) % 2 ^ 64 = E at hok
    by_cases hle : E ≤ data.length
    · rw [if_pos hle] at hok
      by_cases hsE : e.addr offset ≤ E
      · rw [if_pos hsE] at hok
        rw [Option.some.injEq, Except.ok.injEq] at hok
        have hEeq : E = e.addr offset + e.size := by
          rw [← hE]
          exact wrap_add_eq _ _ hs64 (by rw [hE]; exact hsE)
        rw [← hok, hEeq, Nat.add_sub_cancel_left,
          (fieldBytes_self data _ _ (hEeq ▸ hle)).1]
      · rw [if_neg hsE] at hok
        exact absurd hok (by simp)
    · rw [if_neg hle] at hok
      exact absurd hok (by simp)

set_option maxRecDepth 4000 in
/-- Witness for C4 at a concrete compressed `BiosBinary` entry (kind 0x62,
flags 1, resolved start 0) on a 300-byte all-zero image: the two bytes at
offset 256 are `00 00`, no zlib magic, so extraction fails. -/
theorem c4_bios_zlib_witness :
    BiosDirectoryEntry.data ⟨0x62, 0, 1, 0, 0, 0, 0⟩ (List.replicate 300 0) 0 =
      some (.error (.biosNoZlibMagic 256 0)) := by
  have h := ((c4_bios_zlib ⟨0x62, 0, 1, 0, 0, 0, 0⟩
    (List.replicate 300 0) 0).1 rfl rfl (by norm_num) (by decide)).1 (by decide)
  exact h

/-- An `Option.map (Except.map f)` result that is `some ok` comes from a
`some ok` of the underlying computation. -/
theorem map_ok_exists {α β : Type} (f : α → β) (o : Option (Except RErr α))
    (d : β) (h : o.map (Except.map f) = some (.ok d)) :
    ∃ b, o = some (.ok b) ∧ d = f b := by
  rcases o with _ | r
  · simp at h
  · rcases r with er | b
    · simp [Except.map] at h
    · simp [Except.map] at h
      exact ⟨b, rfl, h.symm⟩

/-- C7: `Directory::new` dispatches on the four magic bytes at the given
offset — `$BHD` yields a BIOS directory, `$BL2` a BIOS level-2 directory,
`2BHD` a BIOS combo directory, `$PSP` a PSP directory, `$PL2` a PSP level-2
directory, `2PSP` a PSP combo directory — and any other four bytes yield an
unknown-directory-signature error reporting the observed four bytes. -/
theorem c7_directory_dispatch (data : Bytes) (addr : Nat)
    (h4 : 4 ≤ data.length) :
    (data.take 4 = magicBHD → ∀ d, directoryNew data addr = some (.ok d) →
      ∃ b, d = .Bios b) ∧
    (data.take 4 = magicBL2 → ∀ d, directoryNew data addr = some (.ok d) →
      ∃ b, d = .BiosLevel2 b) ∧
    (data.take 4 = magic2BHD → ∀ d, directoryNew data addr = some (.ok d) →
      ∃ b, d = .BiosCombo b) ∧
    (data.take 4 = magicPSP → ∀ d, directoryNew data addr = some (.ok d) →
      ∃ b, d = .Psp b) ∧
    (data.take 4 = magicPL2 → ∀ d, directoryNew data addr = some (.ok d) →
      ∃ b, d = .PspLevel2 b) ∧
    (data.take 4 = magic2PSP → ∀ d, directoryNew data addr = some (.ok d) →
      ∃ b, d = .PspCombo b) ∧
    (data.take 4 ∉ [magicBHD, magic2BHD, magicBL2, magicPSP, magic2PSP,
        magicPL2] →
      directoryNew data addr =
        some (.error (.unknownDirectorySignature (data.take 4) addr))) := by
  refine ⟨?_, ?_, ?_, ?_, ?_, ?_, ?_⟩
  · intro hm d hd
    unfold directoryNew at hd
    rw [if_neg (by omega : ¬ data.length < 4)] at hd
    simp only [hm] at hd
    rw [if_pos trivial] at hd
    obtain ⟨b, _, hdb⟩ := map_ok_exists _ _ _ hd
    exact ⟨b, hdb⟩
  · intro hm d hd
    unfold directoryNew at hd
    rw [if_neg (by omega : ¬ data.length < 4)] at hd
    simp only [hm] at hd
    rw [if_pos trivial] at hd
    obtain ⟨b, _, hdb⟩ := map_ok_exists _ _ _ hd
    exact ⟨b, hdb⟩
  · intro hm d hd
    unfold directoryNew at hd
    rw [if_neg (by omega : ¬ data.length < 4)] at hd
    simp only [hm] at hd
    rw [if_pos trivial] at hd
    obtain ⟨b, _, hdb⟩ := map_ok_exists _ _ _ hd
    exact ⟨b, hdb⟩
  · intro hm d hd
    unfold directoryNew at hd
    rw [if_neg (by omega : ¬ data.length < 4)] at hd
    simp only [hm] at hd
    rw [if_pos trivial] at hd
    obtain ⟨b, _, hdb⟩ := map_ok_exists _ _ _ hd
    exact ⟨b, hdb⟩
  · intro hm d hd
    unfold directoryNew at hd
    rw [if_neg (by omega : ¬ data.length < 4)] at hd
    simp only [hm] at hd
    rw [if_pos trivial] at hd
    obtain ⟨b, _, hdb⟩ := map_ok_exists _ _ _ hd
    exact ⟨b, hdb⟩
  · intro hm d hd
    unfold directoryNew at hd
    rw [if_neg (by omega : ¬ data.length < 4)] at hd
    simp only [hm] at hd
    rw [if_pos trivial] at hd
    obtain ⟨b, _, hdb⟩ := map_ok_exists _ _ _ hd
    exact ⟨b, hdb⟩
  · intro hnm
    simp only [List.mem_cons, List.mem_singleton, not_or] at hnm
    obtain ⟨h1, h2, h3, h4', h5, h6, -⟩ := hnm
    unfold directoryNew
    rw [if_neg (by omega : ¬ data.length < 4), if_neg h1, if_neg h2,
      if_neg h3, if_neg h4', if_neg h5, if_neg h6]

/-- Witness for C7 on the 4-byte buffer `[0, 1, 2, 3]`, which matches no
directory magic. -/
theorem c7_directory_dispatch_witness :
    directoryNew [0, 1, 2, 3] 5 =
      some (.error (.unknownDirectorySignature [0, 1, 2, 3] 5)) := by
  have h := (c7_directory_dispatch [0, 1, 2, 3] 5 (by decide)).2.2.2.2.2.2
    (by decide)
  exact h

/-- One unfolding of the EFS scan loop. -/
theorem efsScanFrom_step (data : Bytes) (i : Nat) :
    efsScanFrom data i =
      if i + EFS_SIZE ≤ data.length then
        if fieldBytes data i 4 = efsMagicBytes then some i
        else efsScanFrom data (i + STEP_SIZE)
      else none := by
  rw [efsScanFrom, dite_eq_ite]

/-- C6 (evaluating the code at the failing inputs): `Directory::new` panics
on any buffer of fewer than 4 bytes (the unchecked slice `&data[..4]`), and
`BiosDirectoryEntry::data` panics for a compressed `BiosBinary` entry whose
zlib-probe offset `start + 256` lies outside the image (the unchecked
indexing `data[b]`).  Both contradict the claim that parsing and payload
extraction never panic on arbitrary buffers of length at most 64 MiB. -/
theorem c6_panic_on_malformed_input :
    directoryNew [] 0 = none ∧
    BiosDirectoryEntry.data ⟨0x62, 0, 1, 0, 0, 0, 0⟩ [0, 0, 0, 0] 0 = none := by
  constructor
  · rfl
  · rfl

/-- The scan returns `none` when no visited offset carries the magic. -/
theorem efsScanFrom_none (data : Bytes) (s : Nat)
    (h : ∀ k, s + STEP_SIZE * k + EFS_SIZE ≤ data.length →
      fieldBytes data (s + STEP_SIZE * k) 4 ≠ efsMagicBytes) :
    efsScanFrom data s = none := by
  have H : ∀ n s, data.length - s ≤ n →
      (∀ k, s + STEP_SIZE * k + EFS_SIZE ≤ data.length →
        fieldBytes data (s + STEP_SIZE * k) 4 ≠ efsMagicBytes) →
      efsScanFrom data s = none := by
    intro n
    induction n with
    | zero =>
      intro s hns h
      rw [efsScanFrom_step]
      rw [if_neg (by simp only [EFS_SIZE]; omega)]
    | succ n ih =>
      intro s hns h
      rw [efsScanFrom_step]
      by_cases hb : s + EFS_SIZE ≤ data.length
      · rw [if_pos hb,
          if_neg (by simpa using h 0 (by simpa using hb))]
        refine ih (s + STEP_SIZE)
          (by simp only [STEP_SIZE] at *; simp only [EFS_SIZE] at hb; omega)
          fun k hk => ?_
        have := h (k + 1)
          (by rw [Nat.mul_succ] at *; omega)
        rw [Nat.mul_succ] at this
        rw [show s + STEP_SIZE + STEP_SIZE * k = s + (STEP_SIZE * k + STEP_SIZE)
          from by omega]
        exact this
      · rw [if_neg hb]
  exact H (data.length - s) s le_rfl h

/-- The scan returns the first visited offset carrying the magic. -/
theorem efsScanFrom_some (data : Bytes) :
    ∀ (k s i : Nat), i = s + STEP_SIZE * k →
      i + EFS_SIZE ≤ data.length →
      fieldBytes data i 4 = efsMagicBytes →
      (∀ k', k' < k → fieldBytes data (s + STEP_SIZE * k') 4 ≠ efsMagicBytes) →
      efsScanFrom data s = some i := by
  intro k
  induction k with
  | zero =>
    intro s i hi hb hm hfirst
    rw [Nat.mul_zero, Nat.add_zero] at hi
    subst hi
    rw [efsScanFrom_step, if_pos hb, if_pos hm]
  | succ k ih =>
    intro s i hi hb hm hfirst
    rw [efsScanFrom_step]
    have hsb : s + EFS_SIZE ≤ data.length := by
      have : s ≤ i := by rw [hi]; omega
      omega
    rw [if_pos hsb,
      if_neg (by simpa using hfirst 0 (Nat.succ_pos k))]
    refine ih (s + STEP_SIZE) i (by rw [hi, Nat.mul_succ]; omega) hb hm
      fun k' hk' => ?_
    have := hfirst (k' + 1) (by omega)
    rw [Nat.mul_succ] at this
    rw [show s + STEP_SIZE + STEP_SIZE * k' = s + (STEP_SIZE * k' + STEP_SIZE)
      from by omega]
    exact this

/-- C3 (amended): `Rom::new` scans from offset 0 stepping by `0x1000` while
at least `sizeof(EFS) = 75` bytes remain; at the first such offset whose
four leading bytes are the little-endian magic `0x55AA55AA` it parses the
EFS there and returns it (inside a `Rom` holding the whole image; the
matching offset itself is not part of the return value), and if no visited
offset matches it fails with the EFS-not-found error. -/
theorem c3_rom_new_scan (data : Bytes) :
    (∀ i, i % STEP_SIZE = 0 → i + EFS_SIZE ≤ data.length →
      fieldBytes data i 4 = efsMagicBytes →
      (∀ j, j % STEP_SIZE = 0 → j < i → fieldBytes data j 4 ≠ efsMagicBytes) →
      Rom.new data = .ok ⟨data, parseEFS (data.drop i)⟩) ∧
    ((∀ i, i % STEP_SIZE = 0 → i + EFS_SIZE ≤ data.length →
      fieldBytes data i 4 ≠ efsMagicBytes) →
      Rom.new data = .error .efsNotFound) := by
  constructor
  · intro i hmod hb hm hfirst
    have hscan : efsScanFrom data 0 = some i := by
      refine efsScanFrom_some data (i / STEP_SIZE) 0 i ?_ hb hm fun k' hk' => ?_
      · rw [Nat.zero_add, Nat.mul_div_cancel' (Nat.dvd_of_mod_eq_zero hmod)]
      · have hji : STEP_SIZE * k' < i := by
          calc STEP_SIZE * k' < STEP_SIZE * (i / STEP_SIZE) :=
                mul_lt_mul_of_pos_left hk' (by norm_num [STEP_SIZE])
            _ = i := Nat.mul_div_cancel' (Nat.dvd_of_mod_eq_zero hmod)
        simpa using hfirst (STEP_SIZE * k') (Nat.mul_mod_right _ _) hji
    unfold Rom.new
    rw [hscan]
  · intro h
    have hscan : efsScanFrom data 0 = none := by
      refine efsScanFrom_none data 0 fun k hk => ?_
      rw [Nat.zero_add]
      exact h (STEP_SIZE * k) (Nat.mul_mod_right _ _) (by omega)
    unfold Rom.new
    rw [hscan]

/-- Modelled from the spec (for comparison with `Rom.new`, which is the
source's behaviour): the claim's version of the EFS scan, stepping by
`0x1000` while at least `sizeof(EFS) = 76` bytes remain — the spec states
76 where the packed struct actually measures 75 bytes. -/
def efsScanFromSpec76 (data : Bytes) (i : Nat) : Option Nat :=
  if h : i + 76 ≤ data.length then
    if fieldBytes data i 4 = efsMagicBytes then some i
    else efsScanFromSpec76 data (i + STEP_SIZE)
  else none
termination_by data.length - i
decreasing_by
  simp only [STEP_SIZE]
  omega

/-- Modelled from the spec: the claim's `Rom::new`, which scans with the
76-byte bound and returns the parsed EFS record together with its offset
(the source returns no offset). -/
def romNewSpec76 (data : Bytes) : Except RErr (EFS × Nat) :=
  match efsScanFromSpec76 data 0 with
  | some i => .ok (parseEFS (data.drop i), i)
  | none => .error .efsNotFound

/-- One unfolding of the spec-modelled 76-byte scan loop. -/
theorem efsScanFromSpec76_step (data : Bytes) (i : Nat) :
    efsScanFromSpec76 data i =
      if i + 76 ≤ data.length then
        if fieldBytes data i 4 = efsMagicBytes then some i
        else efsScanFromSpec76 data (i + STEP_SIZE)
      else none := by
  rw [efsScanFromSpec76, dite_eq_ite]

/-- A 75-byte image starting with the EFS magic. -/
def cexC3 : Bytes := efsMagicBytes ++ List.replicate 71 0

/-- Counterexample for C3: on a 75-byte image whose first four bytes are the
EFS magic, the claim (scanning "while at least sizeof(EFS) = 76 bytes
remain") predicts `EfsNotFound`, but `Rom::new` — whose loop bound is the
actual `size_of::<EFS>() = 75` — finds and parses the EFS at offset 0 (and
returns no offset alongside the record). -/
theorem c3_counterexample :
    cexC3.length = 75 ∧
    romNewSpec76 cexC3 = .error .efsNotFound ∧
    Rom.new cexC3 = .ok ⟨cexC3, parseEFS cexC3⟩ := by
  refine ⟨by decide, ?_, ?_⟩
  · unfold romNewSpec76
    rw [efsScanFromSpec76_step, if_neg (by decide)]
  · have hscan : efsScanFrom cexC3 0 = some 0 := by
      rw [efsScanFrom_step, if_pos (by decide), if_pos (by decide)]
    unfold Rom.new
    rw [hscan]
    rfl

/-- Witness for C3 (amended) at a concrete input: on the 75-byte image
`cexC3` the magic matches at the first visited offset 0 (the earlier-offset
hypothesis is vacuous), so the scan returns the EFS parsed at 0. -/
theorem c3_rom_new_scan_witness :
    Rom.new cexC3 = .ok ⟨cexC3, parseEFS (cexC3.drop 0)⟩ :=
  (c3_rom_new_scan cexC3).1 0 rfl (by decide) (by decide)
    (fun j hmod hj => absurd hj (by omega))

/-- C8 (amended): `get_real_addr` returns `None` exactly for `0x00000000`
and `0xFFFFFFFF` and `Some` of the value otherwise; `Rom::psp` skips only a
pointer equal to 0 (it does not consult `get_real_addr`), and it follows a
`0xFFFFFFFF` pointer — panicking when the pointer exceeds the image
length. -/
theorem c8_absent_pointers (a : Nat) (r : Rom) :
    (get_real_addr a = none ↔ a = 0x00000000 ∨ a = 0xffffffff) ∧
    (a ≠ 0x00000000 → a ≠ 0xffffffff → get_real_addr a = some a) ∧
    (r.efs.psp_17_00 = 0 → r.psp = some (.ok [])) ∧
    (r.efs.psp_17_00 = 0xffffffff → r.data.length < 0xffffffff →
      r.psp = none) := by
  refine ⟨?_, ?_, ?_, ?_⟩
  · unfold get_real_addr
    constructor
    · intro h
      by_contra hc
      rw [if_neg (by tauto)] at h
      exact Option.noConfusion h
    · intro h
      rw [if_pos h]
  · intro h1 h2
    unfold get_real_addr
    rw [if_neg (by tauto)]
  · intro h0
    unfold Rom.psp
    rw [if_pos h0]
  · intro hF hlen
    unfold Rom.psp
    rw [if_neg (by omega), if_pos (by omega)]

/-- A 75-byte image: the EFS magic, 16 zero bytes, then `FF FF FF FF` as the
modern PSP pointer at offset 0x14, then zeros. -/
def cexC8 : Bytes :=
  efsMagicBytes ++ List.replicate 16 0 ++ [0xff, 0xff, 0xff, 0xff] ++
    List.replicate 51 0

/-- Counterexample for C8: on `cexC8` the parsed EFS's modern PSP pointer is
`0xFFFFFFFF`, which `get_real_addr` classifies as absent — yet `Rom::psp`
follows it (only 0 is skipped) and panics slicing `&data[0xFFFFFFFF..]`,
instead of not following it (which would give `Ok` with no directories). -/
theorem c8_counterexample :
    Rom.new cexC8 = .ok ⟨cexC8, parseEFS cexC8⟩ ∧
    get_real_addr ((parseEFS cexC8).psp_17_00) = none ∧
    Rom.psp ⟨cexC8, parseEFS cexC8⟩ = none := by
  refine ⟨?_, by decide, by rfl⟩
  have hscan : efsScanFrom cexC8 0 = some 0 := by
    rw [efsScanFrom_step, if_pos (by decide), if_pos (by decide)]
  unfold Rom.new
  rw [hscan]
  rfl

/-- Witness for C8 (amended) at `a = 5` and a `Rom` whose EFS (parsed from
the empty buffer) has a zero modern PSP pointer. -/
theorem c8_absent_pointers_witness :
    get_real_addr 5 = some 5 ∧
    Rom.psp ⟨[], parseEFS []⟩ = some (.ok []) := by
  have h := c8_absent_pointers 5 ⟨[], parseEFS []⟩
  exact ⟨h.2.1 (by decide) (by decide), h.2.2.1 (by decide)⟩

/-- Membership in the `common` list of the PSP pairing: an entry of `es1`
together with the first key-matching entry of `es2`. -/
theorem mem_diffPspPairs_common (es1 es2 : List PspDirectoryEntry)
    (de f : PspDirectoryEntry) :
    (de, f) ∈ (diffPspPairs es1 es2).1 ↔
      de ∈ es1 ∧ es2.find? (pspKeyEq de) = some f := by
  simp only [diffPspPairs, List.mem_filterMap, Option.map_eq_some']
  constructor
  · rintro ⟨a, ha, e, hfind, heq⟩
    rw [Prod.mk.injEq] at heq
    obtain ⟨rfl, rfl⟩ := heq
    exact ⟨ha, hfind⟩
  · rintro ⟨hde, hfind⟩
    exact ⟨de, hde, f, hfind, rfl⟩

/-- Membership in the `common` list of the BIOS pairing. -/
theorem mem_diffBiosPairs_common (es1 es2 : List BiosDirectoryEntry)
    (de f : BiosDirectoryEntry) :
    (de, f) ∈ (diffBiosPairs es1 es2).1 ↔
      de ∈ es1 ∧ es2.find? (biosKeyEq de) = some f := by
  simp only [diffBiosPairs, List.mem_filterMap, Option.map_eq_some']
  constructor
  · rintro ⟨a, ha, e, hfind, heq⟩
    rw [Prod.mk.injEq] at heq
    obtain ⟨rfl, rfl⟩ := heq
    exact ⟨ha, hfind⟩
  · rintro ⟨hde, hfind⟩
    exact ⟨de, hde, f, hfind, rfl⟩

/-- Entries with equal PSP pairing keys test other entries identically. -/
theorem pspKeyEq_congr (de1 de2 : PspDirectoryEntry)
    (hk : de1.kind = de2.kind) (hs : de1.sub_program = de2.sub_program) :
    pspKeyEq de1 = pspKeyEq de2 := by
  funext e
  unfold pspKeyEq
  rw [hk, hs]

/-- Entries with equal BIOS pairing keys test other entries identically. -/
theorem biosKeyEq_congr (de1 de2 : BiosDirectoryEntry)
    (hk : de1.kind = de2.kind) (hs : de1.sub_program = de2.sub_program)
    (hf : de1.flags = de2.flags) :
    biosKeyEq de1 = biosKeyEq de2 := by
  funext e
  unfold biosKeyEq
  rw [hk, hs, hf]

/-- C9 (amended): the diff engine pairs each entry with the FIRST entry of
the other side having an equal key (`(kind, sub_program)` for PSP,
`(kind, sub_program, flags)` for BIOS); entries with duplicate keys are
silently paired with that same first partner, and no `DuplicateKey` warning
exists (the pairing result carries only the common / only-1 / only-2
lists). -/
theorem c9_first_match_pairing :
    (∀ (es1 es2 : List PspDirectoryEntry) de f,
      (de, f) ∈ (diffPspPairs es1 es2).1 ↔
        de ∈ es1 ∧ es2.find? (pspKeyEq de) = some f) ∧
    (∀ (es1 es2 : List PspDirectoryEntry) de1 de2 f1 f2,
      (de1, f1) ∈ (diffPspPairs es1 es2).1 →
      (de2, f2) ∈ (diffPspPairs es1 es2).1 →
      de1.kind = de2.kind → de1.sub_program = de2.sub_program →
      f1 = f2) ∧
    (∀ (es1 es2 : List BiosDirectoryEntry) de f,
      (de, f) ∈ (diffBiosPairs es1 es2).1 ↔
        de ∈ es1 ∧ es2.find? (biosKeyEq de) = some f) ∧
    (∀ (es1 es2 : List BiosDirectoryEntry) de1 de2 f1 f2,
      (de1, f1) ∈ (diffBiosPairs es1 es2).1 →
      (de2, f2) ∈ (diffBiosPairs es1 es2).1 →
      de1.kind = de2.kind → de1.sub_program = de2.sub_program →
      de1.flags = de2.flags → f1 = f2) := by
  refine ⟨mem_diffPspPairs_common, ?_, mem_diffBiosPairs_common, ?_⟩
  · intro es1 es2 de1 de2 f1 f2 h1 h2 hk hs
    have hf1 := (mem_diffPspPairs_common es1 es2 de1 f1).mp h1 |>.2
    have hf2 := (mem_diffPspPairs_common es1 es2 de2 f2).mp h2 |>.2
    rw [pspKeyEq_congr de1 de2 hk hs] at hf1
    rw [hf1] at hf2
    exact Option.some.inj hf2
  · intro es1 es2 de1 de2 f1 f2 h1 h2 hk hs hf
    have hf1 := (mem_diffBiosPairs_common es1 es2 de1 f1).mp h1 |>.2
    have hf2 := (mem_diffBiosPairs_common es1 es2 de2 f2).mp h2 |>.2
    rw [biosKeyEq_congr de1 de2 hk hs hf] at hf1
    rw [hf1] at hf2
    exact Option.some.inj hf2

/-- A `$PSP` directory image with two entries sharing the pairing key
`(kind, sub_program) = (1, 0)` but different sizes (4 and 8). -/
def cexC9 : Bytes :=
  [0x24, 0x50, 0x53, 0x50, 0, 0, 0, 0, 2, 0, 0, 0, 0, 0, 0, 0,
   1, 0, 0, 0, 4, 0, 0, 0, 0, 0, 0, 0, 0, 0, 0, 0,
   1, 0, 0, 0, 8, 0, 0, 0, 0, 0, 0, 0, 0, 0, 0, 0]

/-- Counterexample for C9: `cexC9` parses successfully into a PSP directory
whose two entries share the pairing key `(1, 0)` — so the key is NOT unique
in a parsed directory — and the diff pairing silently pairs both of them
with the first matching entry of the other side; no `DuplicateKey` warning
is reported (none exists in the diff engine). -/
theorem c9_counterexample :
    pspDirectoryNew cexC9 0 =
      some (.ok ⟨0, ⟨0x50535024, 0, 2, 0⟩,
        [⟨1, 0, 0, 0, 4, 0⟩, ⟨1, 0, 0, 0, 8, 0⟩]⟩) ∧
    (diffPspPairs [⟨1, 0, 0, 0, 4, 0⟩, ⟨1, 0, 0, 0, 8, 0⟩]
        [⟨1, 0, 0, 0, 4, 0⟩, ⟨1, 0, 0, 0, 8, 0⟩]).1 =
      [(⟨1, 0, 0, 0, 4, 0⟩, ⟨1, 0, 0, 0, 4, 0⟩),
       (⟨1, 0, 0, 0, 8, 0⟩, ⟨1, 0, 0, 0, 4, 0⟩)] := by
  constructor
  · rfl
  · rfl

/-- Witness for C9 (amended): in the pairing of the duplicate-key directory
against itself, the second entry is paired with the FIRST entry of the other
side (equal key, different size). -/
theorem c9_first_match_pairing_witness :
    ((⟨1, 0, 0, 0, 8, 0⟩ : PspDirectoryEntry), (⟨1, 0, 0, 0, 4, 0⟩ :
        PspDirectoryEntry)) ∈
      (diffPspPairs [⟨1, 0, 0, 0, 4, 0⟩, ⟨1, 0, 0, 0, 8, 0⟩]
        [⟨1, 0, 0, 0, 4, 0⟩, ⟨1, 0, 0, 0, 8, 0⟩]).1 :=
  (c9_first_match_pairing.1 _ _ _ _).mpr ⟨by decide, by rfl⟩

end Romulan
